import Mathlib

/-!
Verification development for the `contextual-anomaly-detector` repository.

The definitions below are a shallow embedding of the Python sources:
`src/src/cmp/main.py` (pipeline driver), `src/src/cmp/cart_function.py`
(time-window extraction by regression tree), `src/src/cmp/clustering_function.py`
(day clustering) and `src/CMP/Polito_Usecase.py` (the older driver variant).

Numeric conventions: Python floats are embedded as rationals; `numpy` NaN is
embedded as `Option.none` where it is used as a mask value; `numpy` `+inf`
(used as the trivial-match sentinel in distance matrices) is a dedicated
constructor of `NpVal`.
-/

namespace CAD

/-- Python `int(x)`: truncation toward zero. -/
def pyInt (q : ℚ) : ℤ := if 0 ≤ q then ⌊q⌋ else ⌈q⌉

/-- `numpy.round` on a scalar: round half to even. -/
def roundHalfEven (q : ℚ) : ℤ :=
  if q - ⌊q⌋ < 1/2 then ⌊q⌋
  else if 1/2 < q - ⌊q⌋ then ⌊q⌋ + 1
  else if Even ⌊q⌋ then ⌊q⌋ else ⌊q⌋ + 1

theorem pyInt_intCast (z : ℤ) : pyInt (z : ℚ) = z := by
  unfold pyInt
  rcases le_or_lt 0 (z : ℚ) with h | h
  · simp [h]
  · simp [not_le.mpr h]

theorem pyInt_of_nonneg {q : ℚ} (h : 0 ≤ q) : pyInt q = ⌊q⌋ := by
  unfold pyInt; simp [h]

theorem roundHalfEven_intCast (z : ℤ) : roundHalfEven (z : ℚ) = z := by
  unfold roundHalfEven
  simp

theorem roundHalfEven_le (q : ℚ) : (roundHalfEven q : ℚ) ≤ q + 1/2 := by
  unfold roundHalfEven
  have hfl : (⌊q⌋ : ℚ) ≤ q := Int.floor_le q
  split_ifs with h1 h2 h3
  · linarith
  · push_neg at h1
    push_cast
    linarith
  · linarith
  · push_neg at h1 h2
    push_cast
    linarith

theorem le_roundHalfEven (q : ℚ) : q - 1/2 ≤ (roundHalfEven q : ℚ) := by
  unfold roundHalfEven
  have hfl : q - 1 < (⌊q⌋ : ℚ) := by
    have := Int.sub_one_lt_floor q
    linarith
  split_ifs with h1 h2 h3
  · linarith
  · push_cast; linarith
  · linarith
  · push_cast; linarith

/-! ### Time conversions

`hour_to_dec`, `dec_to_hour` and `dec_to_obs` live in `src/cmp/utils.py`, which is
not among the sources; they are modelled from the spec.  A clock label "HH:MM" is
embedded as the pair of its two numeric fields. -/

/-- Modelled from the spec: `hour_to_dec` of `src/cmp/utils.py` (file not in the
sources) turns an "HH:MM" label into decimal hours, `HH + MM/60`. -/
def hour_to_dec (hm : ℤ × ℤ) : ℚ := hm.1 + hm.2 / 60

/-- Modelled from the spec: `dec_to_obs` of `src/cmp/utils.py` (file not in the
sources) turns decimal hours into observation units at `obs_per_hour`
observations per hour. -/
def dec_to_obs (dec : ℚ) (oph : ℕ) : ℤ := pyInt (dec * oph)

/-! ### Anomalies table (main.py lines 325-338)

Per (time window, cluster) pair the driver combines the CMP score and the energy
score, clears combined values below 6 to NaN (`np.where`), and lists the
surviving days.  The scores are the integer vectors returned by
`anomaly_detection`; a row stores the day's position in `date_labels` (whose
entry is the "Date" column value), the combined value ("Anomaly Score") and the
"Rank" column (`anomalies_table.index + 1`). -/

/-- `cmp_ad_score = np.array(df["cmp_score"] + df["energy_score"])` (main.py line 325). -/
def combinedScores (cmpScore energyScore : List ℤ) : List ℤ :=
  List.zipWith (· + ·) cmpScore energyScore

/-- `np.where(cmp_ad_score < 6, np.nan, cmp_ad_score)` (main.py line 327); NaN is `none`. -/
def maskBelowSix (xs : List ℤ) : List (Option ℤ) :=
  xs.map (fun x => if x < 6 then none else some x)

/-- `np.where(mask)[0]`: the indices at which a boolean vector is true. -/
def npWhere (mask : List Bool) : List ℕ :=
  (List.range mask.length).filter (fun i => mask.getD i false)

/-- `np.where(~np.isnan(cmp_ad_score))[0].tolist()` (main.py line 329). -/
def anomalyIndices (masked : List (Option ℤ)) : List ℕ :=
  npWhere (masked.map Option.isSome)

/-- One row of `anomalies_table` (main.py lines 332-335): `dayIdx` is the position
into `date_labels` whose entry fills the "Date" column. -/
structure AnomalyRow where
  dayIdx : ℕ
  score : ℤ
  rank : ℕ
deriving DecidableEq, Repr

/-- `anomalies_table` for one (window, cluster) pair (main.py lines 332-335):
Date = `date_labels[cmp_ad_score_index]`, "Anomaly Score" =
`cmp_ad_score[cmp_ad_score_index]`, Rank = dataframe index + 1. -/
def anomaliesTable (cmpScore energyScore : List ℤ) : List AnomalyRow :=
  (anomalyIndices (maskBelowSix (combinedScores cmpScore energyScore))).enum.map
    (fun p => ⟨p.2, (combinedScores cmpScore energyScore).getD p.2 0, p.1 + 1⟩)

theorem mem_npWhere {mask : List Bool} {i : ℕ} :
    i ∈ npWhere mask ↔ i < mask.length ∧ mask.getD i false = true := by
  unfold npWhere
  simp [List.mem_filter, List.mem_range]

theorem mem_anomalyIndices {c : List ℤ} {i : ℕ} :
    i ∈ anomalyIndices (maskBelowSix c) ↔ i < c.length ∧ 6 ≤ c.getD i 0 := by
  unfold anomalyIndices maskBelowSix
  rw [mem_npWhere]
  simp only [List.length_map]
  constructor
  · rintro ⟨hi, hv⟩
    refine ⟨hi, ?_⟩
    rw [List.getD_eq_getElem?_getD, List.getElem?_map, List.getElem?_map,
      List.getElem?_eq_getElem hi] at hv
    rw [List.getD_eq_getElem?_getD, List.getElem?_eq_getElem hi]
    by_contra h
    push_neg at h
    simp only [Option.map_some', Option.getD_some] at hv h
    rw [if_pos (by simpa using h)] at hv
    simp at hv
  · rintro ⟨hi, hv⟩
    refine ⟨hi, ?_⟩
    rw [List.getD_eq_getElem?_getD, List.getElem?_eq_getElem hi] at hv
    rw [List.getD_eq_getElem?_getD, List.getElem?_map, List.getElem?_map,
      List.getElem?_eq_getElem hi]
    simp only [Option.map_some', Option.getD_some] at hv ⊢
    rw [if_neg (by simpa using not_lt.mpr hv)]
    simp

theorem anomaliesTable_map_dayIdx (cmpScore energyScore : List ℤ) :
    (anomaliesTable cmpScore energyScore).map AnomalyRow.dayIdx
      = anomalyIndices (maskBelowSix (combinedScores cmpScore energyScore)) := by
  unfold anomaliesTable
  rw [List.map_map]
  have h : (AnomalyRow.dayIdx ∘ fun p : ℕ × ℕ =>
      (⟨p.2, (combinedScores cmpScore energyScore).getD p.2 0, p.1 + 1⟩ : AnomalyRow))
      = Prod.snd := rfl
  rw [h, List.enum_eq_enumFrom, List.enumFrom_map_snd]

theorem score_of_mem_anomaliesTable {cmpScore energyScore : List ℤ} {r : AnomalyRow}
    (hr : r ∈ anomaliesTable cmpScore energyScore) :
    r.score = (combinedScores cmpScore energyScore).getD r.dayIdx 0 := by
  unfold anomaliesTable at hr
  obtain ⟨p, _, hfp⟩ := List.mem_map.mp hr
  rw [← hfp]

/-- C1: in the pipeline driver, for every (window, cluster) pair a day enters the
anomalies table iff its combined severity `cmp_score + energy_score` is at least 6,
and the recorded "Anomaly Score" equals exactly that sum; the temperature score is
not an argument of the table construction at all (main.py lines 325-336). -/
theorem anomaliesTable_reported_iff_and_score (cmpScore energyScore : List ℤ) (d : ℕ)
    (hd : d < (combinedScores cmpScore energyScore).length) :
    ((∃ r ∈ anomaliesTable cmpScore energyScore, r.dayIdx = d) ↔
      6 ≤ (combinedScores cmpScore energyScore).getD d 0)
    ∧ ∀ r ∈ anomaliesTable cmpScore energyScore, r.dayIdx = d →
        r.score = (combinedScores cmpScore energyScore).getD d 0 := by
  constructor
  · constructor
    · rintro ⟨r, hr, hrd⟩
      have hmem : r.dayIdx ∈ (anomaliesTable cmpScore energyScore).map AnomalyRow.dayIdx :=
        List.mem_map_of_mem _ hr
      rw [anomaliesTable_map_dayIdx] at hmem
      rw [← hrd]
      exact (mem_anomalyIndices.mp hmem).2
    · intro h6
      have hmem : d ∈ anomalyIndices
          (maskBelowSix (combinedScores cmpScore energyScore)) :=
        mem_anomalyIndices.mpr ⟨hd, h6⟩
      rw [← anomaliesTable_map_dayIdx] at hmem
      obtain ⟨r, hr, hrd⟩ := List.mem_map.mp hmem
      exact ⟨r, hr, hrd⟩
  · intro r hr hrd
    rw [← hrd]
    exact score_of_mem_anomaliesTable hr

/-- Witness for C1 at a concrete input: two days with scores `cmp = [3, 0]`,
`energy = [3, 0]`; day 0 has combined severity 6 and is reported with that score. -/
theorem anomaliesTable_reported_iff_and_score_witness :
    0 < (combinedScores [3, 0] [3, 0]).length ∧
    (((∃ r ∈ anomaliesTable [3, 0] [3, 0], r.dayIdx = 0) ↔
      6 ≤ (combinedScores [3, 0] [3, 0]).getD 0 0)
    ∧ ∀ r ∈ anomaliesTable [3, 0] [3, 0], r.dayIdx = 0 →
        r.score = (combinedScores [3, 0] [3, 0]).getD 0 0) :=
  ⟨by decide, anomaliesTable_reported_iff_and_score [3, 0] [3, 0] 0 (by decide)⟩

theorem npWhere_length (mask : List Bool) :
    (npWhere mask).length = mask.countP (fun b => b) := by
  induction mask with
  | nil => rfl
  | cons a l ih =>
    unfold npWhere at ih ⊢
    have hc : ∀ i, (a :: l).getD (i + 1) false = l.getD i false := by
      intro i
      simp [List.getD_eq_getElem?_getD]
    have h0 : (a :: l).getD 0 false = a := by
      simp [List.getD_eq_getElem?_getD]
    rw [List.length_cons, List.range_succ_eq_map, List.filter_cons, List.filter_map,
      List.countP_cons]
    have hfeq : List.filter ((fun i => (a :: l).getD i false) ∘ Nat.succ)
          (List.range l.length)
        = List.filter (fun i => l.getD i false) (List.range l.length) := by
      apply List.filter_congr
      intro i _
      show (a :: l).getD (i + 1) false = l.getD i false
      exact hc i
    rw [hfeq]
    cases a
    · simp [h0]
      simpa using ih
    · simp [h0]
      simpa using ih

theorem anomaliesTable_length (cmpScore energyScore : List ℤ) :
    (anomaliesTable cmpScore energyScore).length
      = (combinedScores cmpScore energyScore).countP (fun x => decide (6 ≤ x)) := by
  unfold anomaliesTable
  rw [List.length_map, List.enum_eq_enumFrom, List.enumFrom_length]
  unfold anomalyIndices
  rw [npWhere_length]
  unfold maskBelowSix
  rw [List.countP_map, List.countP_map]
  apply List.countP_congr
  intro x _
  by_cases h : x < 6
  · simp [Function.comp, h, not_le.mpr h]
  · simp [Function.comp, h, not_lt.mp h]

theorem anomaliesTable_map_rank (cmpScore energyScore : List ℤ) :
    (anomaliesTable cmpScore energyScore).map AnomalyRow.rank
      = List.range' 1 (anomaliesTable cmpScore energyScore).length := by
  unfold anomaliesTable
  rw [List.map_map, List.length_map]
  have h : (AnomalyRow.rank ∘ fun p : ℕ × ℕ =>
      (⟨p.2, (combinedScores cmpScore energyScore).getD p.2 0, p.1 + 1⟩ : AnomalyRow))
      = ((fun i => 1 + i) ∘ Prod.fst) := by
    funext p
    simp [Function.comp, Nat.add_comm]
  rw [h, ← List.map_map, List.enum_eq_enumFrom, List.enumFrom_map_fst,
    List.enumFrom_length, List.map_add_range']

/-- C3 counterexample: with 11 days all of combined severity at least 6 and the
largest severity on the second day, the emitted table has 11 rows (more than 10)
and its "Anomaly Score" column is not ordered descending. -/
theorem anomaliesTable_claimC3_false :
    (anomaliesTable [3, 4, 3, 3, 3, 3, 3, 3, 3, 3, 3] [3, 3, 3, 3, 3, 3, 3, 3, 3, 3, 3]).length
        = 11
    ∧ ¬ ((anomaliesTable [3, 4, 3, 3, 3, 3, 3, 3, 3, 3, 3]
          [3, 3, 3, 3, 3, 3, 3, 3, 3, 3, 3]).map AnomalyRow.score).Pairwise (fun a b => b ≤ a)
    ∧ ¬ (anomaliesTable [3, 4, 3, 3, 3, 3, 3, 3, 3, 3, 3]
          [3, 3, 3, 3, 3, 3, 3, 3, 3, 3, 3]).length ≤ 10 := by
  refine ⟨by decide, ?_, by decide⟩
  decide

/-- C3 (amended): the anomaly rows for a (window, cluster) pair are emitted in
ascending day order, every day whose combined severity is at least 6 is emitted
(no cap at 10 on the table; the cap only limits `num_anomalies_to_show` used for
plotting), and each row's Rank equals its 1-based position in that day order. -/
theorem anomaliesTable_order_rank_nocap (cmpScore energyScore : List ℤ) :
    ((anomaliesTable cmpScore energyScore).map AnomalyRow.dayIdx).Pairwise (· < ·)
    ∧ (anomaliesTable cmpScore energyScore).length
        = (combinedScores cmpScore energyScore).countP (fun x => decide (6 ≤ x))
    ∧ (anomaliesTable cmpScore energyScore).map AnomalyRow.rank
        = List.range' 1 (anomaliesTable cmpScore energyScore).length := by
  refine ⟨?_, anomaliesTable_length _ _, anomaliesTable_map_rank _ _⟩
  rw [anomaliesTable_map_dayIdx]
  unfold anomalyIndices npWhere
  exact List.Pairwise.filter _ (List.pairwise_lt_range _)

/-! ### Data-driven context definition (main.py lines 130-141 and 166-174,
Polito_Usecase.py lines 167-177)

A time-window row of the CART output: `from`/`to` are "HH:MM" labels embedded as
numeric pairs, `observations` the window length in observations. -/

structure TimeWindowRow where
  id : ℕ
  observations : ℤ
  fromHH : ℤ × ℤ
  toHH : ℤ × ℤ
deriving DecidableEq, Repr, Inhabited

/-- `m_context = 1  # [h]` (main.py line 77). -/
def m_context : ℚ := 1

/-- The per-window context configuration computed by the driver. -/
structure ContextConfig where
  context_start : ℚ
  context_end : ℚ
  m : ℤ
deriving DecidableEq, Repr

/-- main.py lines 130-140: for the first window the context is [00:00, 00:00+m_context)
and `m = int((hour_to_dec(tw["to"][0]) - 0.25 - m_context) * obs_per_hour)`; for a
later window `m = tw["observations"][id_tw]`,
`context_end = hour_to_dec(tw["from"][id_tw]) + 0.25`,
`context_start = context_end - m_context`. -/
def contextConfigMain (tw : List TimeWindowRow) (id_tw : ℕ) (oph : ℕ) : ContextConfig :=
  if id_tw = 0 then
    let cs : ℚ := 0
    let ce := cs + m_context
    { context_start := cs, context_end := ce,
      m := pyInt ((hour_to_dec (tw.getD 0 default).toHH - 1/4 - m_context) * oph) }
  else
    let w := tw.getD id_tw default
    let ce := hour_to_dec w.fromHH + 1/4
    { context_start := ce - m_context, context_end := ce, m := w.observations }

/-- Polito_Usecase.py lines 167-177: identical except that for the first window
`m = 23` (the computed recipe is commented out) and `m_context` is read from
`m_context.csv` (here the parameter `m_ctx`). -/
def contextConfigPolito (tw : List TimeWindowRow) (id_tw : ℕ) (m_ctx : ℚ) : ContextConfig :=
  if id_tw = 0 then
    let cs : ℚ := 0
    let ce := cs + m_ctx
    { context_start := cs, context_end := ce, m := 23 }
  else
    let w := tw.getD id_tw default
    let ce := hour_to_dec w.fromHH + 1/4
    { context_start := ce - m_ctx, context_end := ce, m := w.observations }

/-- The spec's computed recipe for the first window's query length:
`int((to − 0.25 − m_ctx) · p/24)` where `p/24` is `obs_per_hour`. -/
def specFirstWindowM (toHH : ℤ × ℤ) (m_ctx : ℚ) (oph : ℕ) : ℤ :=
  pyInt ((hour_to_dec toHH - 1/4 - m_ctx) * oph)

/-- C4: for the first time window the driver of main.py sets the query length to
the computed value `int((hour_to_dec(to[0]) − 0.25 − m_context) · obs_per_hour)`
(the spec's computed recipe), not to the constant 23 of Polito_Usecase.py: at the
concrete window ending 09:30 with 4 observations per hour the two recipes give
33 and 23. -/
theorem firstWindow_m_is_computed_not_23 :
    (∀ (tw : List TimeWindowRow) (oph : ℕ),
      (contextConfigMain tw 0 oph).m = specFirstWindowM (tw.getD 0 default).toHH m_context oph)
    ∧ (contextConfigPolito [⟨1, 33, (0, 0), (9, 30)⟩] 0 1).m = 23
    ∧ (contextConfigMain [⟨1, 33, (0, 0), (9, 30)⟩] 0 4).m = 33
    ∧ (contextConfigMain [⟨1, 33, (0, 0), (9, 30)⟩] 0 4).m ≠ 23 := by
  refine ⟨fun tw oph => rfl, rfl, ?_, ?_⟩
  · show pyInt ((hour_to_dec (9, 30) - 1/4 - m_context) * 4) = 33
    rw [show ((hour_to_dec (9, 30) - 1/4 - m_context) * 4 : ℚ) = ((33 : ℤ) : ℚ) by
      norm_num [hour_to_dec, m_context]]
    exact pyInt_intCast 33
  · show pyInt ((hour_to_dec (9, 30) - 1/4 - m_context) * 4) ≠ 23
    rw [show ((hour_to_dec (9, 30) - 1/4 - m_context) * 4 : ℚ) = ((33 : ℤ) : ℚ) by
      norm_num [hour_to_dec, m_context]]
    rw [pyInt_intCast 33]
    decide

/-- main.py lines 166-174: the `GeneralStaticManager` context ranges, one per day
`x ∈ [0, len(data) // obs_per_day)`:
`range(x*obs_per_day + dec_to_obs(context_start, oph), x*obs_per_day + dec_to_obs(context_end, oph))`;
a Python `range(a, b)` is embedded as the pair `(a, b)` of its half-open bounds. -/
def contextRanges (cfg : ContextConfig) (nObs opd oph : ℕ) : List (ℤ × ℤ) :=
  (List.range (nObs / opd)).map (fun (x : ℕ) =>
    (((x * opd : ℕ) : ℤ) + dec_to_obs cfg.context_start oph,
     ((x * opd : ℕ) : ℤ) + dec_to_obs cfg.context_end oph))

/-- The spec's context bounds `[s, e)` in observation units for window `k`:
for `k = 0`, `s = 0` and `e = m_ctx·p/24` (with `m_ctx = 1`); for `k > 0`,
`e = (from_hours(W[k]) + 0.25)·p/24` and `s = e − m_ctx·p/24`. -/
def specContextBounds (tw : List TimeWindowRow) (k : ℕ) (opd : ℕ) : ℚ × ℚ :=
  if k = 0 then (0, 1 * opd / 24)
  else
    ((hour_to_dec (tw.getD k default).fromHH + 1/4) * opd / 24 - 1 * opd / 24,
     (hour_to_dec (tw.getD k default).fromHH + 1/4) * opd / 24)

theorem dec_to_obs_zero (oph : ℕ) : dec_to_obs 0 oph = 0 := by
  unfold dec_to_obs
  rw [zero_mul]
  exact pyInt_intCast 0

theorem dec_to_obs_one (oph : ℕ) : dec_to_obs 1 oph = oph := by
  unfold dec_to_obs
  rw [one_mul, show ((oph : ℚ)) = ((oph : ℤ) : ℚ) by push_cast; ring]
  exact pyInt_intCast oph

theorem dec_to_obs_of_int {q : ℚ} {oph : ℕ} {z : ℤ} (h : q * oph = (z : ℚ)) :
    dec_to_obs q oph = z := by
  unfold dec_to_obs
  rw [h]
  exact pyInt_intCast z

/-- C5: for every window index `k` into the CART table and every day
`d ∈ [0, len(data) // obs_per_day)`, the driver's context for day `d` is the
half-open range `[d·p + s, d·p + e)` with `s, e` as the spec states them
(for `k = 0`: `s = 0`, `e = m_ctx·p/24`; for `k > 0`:
`e = (from_hours + 0.25)·p/24`, `s = e − m_ctx·p/24`), and for `k > 0` the query
length is `W[k].observations`.  Hypotheses: the cadence satisfies
`obs_per_day = 24·obs_per_hour` and the window start is aligned to the
observation grid. -/
theorem contextConfigMain_zero (tw : List TimeWindowRow) (oph : ℕ) :
    contextConfigMain tw 0 oph =
      { context_start := 0, context_end := 1,
        m := pyInt ((hour_to_dec (tw.getD 0 default).toHH - 1/4 - m_context) * oph) } := by
  unfold contextConfigMain
  norm_num [m_context]

theorem contextConfigMain_pos (tw : List TimeWindowRow) (oph k : ℕ) (hk : k ≠ 0) :
    contextConfigMain tw k oph =
      { context_start := hour_to_dec (tw.getD k default).fromHH + 1/4 - m_context,
        context_end := hour_to_dec (tw.getD k default).fromHH + 1/4,
        m := (tw.getD k default).observations } := by
  unfold contextConfigMain
  rw [if_neg hk]

theorem specContextBounds_zero (tw : List TimeWindowRow) (opd : ℕ) :
    specContextBounds tw 0 opd = ((0 : ℚ), 1 * (opd : ℚ) / 24) := by
  unfold specContextBounds
  rw [if_pos rfl]

theorem specContextBounds_pos (tw : List TimeWindowRow) (opd k : ℕ) (hk : k ≠ 0) :
    specContextBounds tw k opd =
      ((hour_to_dec (tw.getD k default).fromHH + 1/4) * opd / 24 - 1 * opd / 24,
       (hour_to_dec (tw.getD k default).fromHH + 1/4) * opd / 24) := by
  unfold specContextBounds
  rw [if_neg hk]

/-- C5: for every window index `k` into the CART table and every day
`d ∈ [0, len(data) // obs_per_day)`, the driver's context for day `d` is the
half-open range `[d·p + s, d·p + e)` with `s, e` as the spec states them
(for `k = 0`: `s = 0`, `e = m_ctx·p/24`; for `k > 0`:
`e = (from_hours + 0.25)·p/24`, `s = e − m_ctx·p/24`), and for `k > 0` the query
length is `W[k].observations`.  Hypotheses: the cadence satisfies
`obs_per_day = 24·obs_per_hour` and the window start is aligned to the
observation grid. -/
theorem contextRanges_match_spec (tw : List TimeWindowRow) (k nObs opd oph : ℕ)
    (hcad : opd = 24 * oph)
    (hq : ∃ z : ℤ, (hour_to_dec (tw.getD k default).fromHH + 1/4) * oph = (z : ℚ)) :
    ((contextRanges (contextConfigMain tw k oph) nObs opd oph).map
        (fun r => ((r.1 : ℚ), (r.2 : ℚ))))
      = (List.range (nObs / opd)).map (fun (d : ℕ) =>
          (((d * opd : ℕ) : ℚ) + (specContextBounds tw k opd).1,
           ((d * opd : ℕ) : ℚ) + (specContextBounds tw k opd).2))
    ∧ (k ≠ 0 → (contextConfigMain tw k oph).m = (tw.getD k default).observations) := by
  obtain ⟨z, hz⟩ := hq
  constructor
  · unfold contextRanges
    rw [List.map_map]
    apply List.map_congr_left
    intro x _
    by_cases hk : k = 0
    · subst hk
      rw [contextConfigMain_zero, specContextBounds_zero]
      rw [Prod.mk.injEq]
      constructor
      · show ((((x * opd : ℕ) : ℤ) + dec_to_obs 0 oph : ℤ) : ℚ) = _
        rw [dec_to_obs_zero]
        push_cast
        ring
      · show ((((x * opd : ℕ) : ℤ) + dec_to_obs 1 oph : ℤ) : ℚ) = _
        rw [dec_to_obs_one]
        subst hcad
        push_cast
        ring
    · rw [contextConfigMain_pos tw oph k hk, specContextBounds_pos tw opd k hk]
      rw [Prod.mk.injEq]
      have hzs : (hour_to_dec (tw.getD k default).fromHH + 1/4 - m_context) * oph
          = ((z - oph : ℤ) : ℚ) := by
        rw [sub_mul, hz]
        push_cast
        norm_num [m_context]
      constructor
      · show ((((x * opd : ℕ) : ℤ) + dec_to_obs _ oph : ℤ) : ℚ) = _
        rw [dec_to_obs_of_int hzs]
        subst hcad
        push_cast
        linarith [hz]
      · show ((((x * opd : ℕ) : ℤ) + dec_to_obs _ oph : ℤ) : ℚ) = _
        rw [dec_to_obs_of_int hz]
        subst hcad
        push_cast
        linarith [hz]
  · intro hk
    rw [contextConfigMain_pos tw oph k hk]

/-- Witness for C5 at a concrete input: the second window of a two-window table
starting at 09:30, with 96 observations per day and 4 per hour. -/
theorem contextRanges_match_spec_witness :
    (96 = 24 * 4
      ∧ ∃ z : ℤ, (hour_to_dec ((([⟨1, 33, (0, 0), (9, 30)⟩, ⟨2, 18, (9, 30), (14, 0)⟩] :
          List TimeWindowRow).getD 1 default).fromHH) + 1/4) * 4 = (z : ℚ))
    ∧ (((contextRanges (contextConfigMain [⟨1, 33, (0, 0), (9, 30)⟩, ⟨2, 18, (9, 30), (14, 0)⟩] 1 4)
          192 96 4).map (fun r => ((r.1 : ℚ), (r.2 : ℚ))))
      = (List.range (192 / 96)).map (fun (d : ℕ) =>
          (((d * 96 : ℕ) : ℚ) + (specContextBounds [⟨1, 33, (0, 0), (9, 30)⟩, ⟨2, 18, (9, 30), (14, 0)⟩] 1 96).1,
           ((d * 96 : ℕ) : ℚ) + (specContextBounds [⟨1, 33, (0, 0), (9, 30)⟩, ⟨2, 18, (9, 30), (14, 0)⟩] 1 96).2))
      ∧ (1 ≠ 0 → (contextConfigMain [⟨1, 33, (0, 0), (9, 30)⟩, ⟨2, 18, (9, 30), (14, 0)⟩] 1 4).m
          = (([⟨1, 33, (0, 0), (9, 30)⟩, ⟨2, 18, (9, 30), (14, 0)⟩] :
              List TimeWindowRow).getD 1 default).observations)) :=
  ⟨⟨by norm_num, ⟨39, by norm_num [hour_to_dec]⟩⟩,
    contextRanges_match_spec [⟨1, 33, (0, 0), (9, 30)⟩, ⟨2, 18, (9, 30), (14, 0)⟩] 1 192 96 4
      (by norm_num) ⟨39, by norm_num [hour_to_dec]⟩⟩

/-! ### Day clustering (clustering_function.py lines 24-68)

`run_clustering` marks each date: `Cluster_1` iff it is a Sunday or an Italian
holiday, `Cluster_2` iff it is a Saturday; the remaining ("working") days are
labelled by `AgglomerativeClustering.fit_predict` into `optimal_clusters`
groups and column `Cluster_{i+3}` marks the working days with label `i`.
A day is embedded as the information the function reads: its Python
`weekday()` (0 = Monday .. 6 = Sunday) and its membership in `holidays.IT()`
(an external library, taken as a per-day boolean).  The fit labels of the
external clustering algorithm are likewise an oracle `label : day index → ℕ`
with values below `optimal_clusters`. -/

structure DayInfo where
  weekday : ℕ
  holidayIT : Bool
deriving DecidableEq, Repr

/-- clustering_function.py lines 26-29: Sunday or Italian holiday. -/
def cluster1Member (d : DayInfo) : Bool := d.weekday == 6 || d.holidayIT

/-- clustering_function.py lines 32-35: Saturday. -/
def cluster2Member (d : DayInfo) : Bool := d.weekday == 5

/-- clustering_function.py line 39: the hierarchical clustering runs on days in
neither Cluster1 nor Cluster2. -/
def workingDay (d : DayInfo) : Bool := !(cluster1Member d || cluster2Member d)

/-- One row of the boolean mask `group_cluster` (clustering_function.py lines
61-68) for a day: `Cluster_1`, `Cluster_2`, then one column per hierarchical
cluster label `i < optimalClusters`. -/
def clusterMaskRow (optimalClusters : ℕ) (label : ℕ) (d : DayInfo) : List Bool :=
  cluster1Member d :: cluster2Member d ::
    (List.range optimalClusters).map (fun i => workingDay d && label == i)

/-- The full boolean mask returned by `run_clustering`, one row per day. -/
def run_clustering_mask (days : List DayInfo) (optimalClusters : ℕ)
    (label : ℕ → ℕ) : List (List Bool) :=
  days.enum.map (fun p => clusterMaskRow optimalClusters (label p.1) p.2)

/-- C6 counterexample: on a dataset containing a Saturday that is an Italian
holiday (e.g. 2025-11-01, All Saints' Day — `weekday() = 5` and a member of
`holidays.IT()`), that day's mask row is true in both `Cluster_1` and
`Cluster_2`, so it is not marked in exactly one cluster. -/
theorem clusterMaskRow_claimC6_false :
    ¬ ((run_clustering_mask [⟨5, true⟩] 3 (fun _ => 0)).getD 0 []).count true = 1 := by
  decide

theorem count_true_map_and_label (oc label : ℕ) (b : Bool) (hl : label < oc) :
    ((List.range oc).map (fun i => b && label == i)).count true
      = if b then 1 else 0 := by
  cases b
  · simp [List.count_replicate]
  · simp only [Bool.true_and, List.count_eq_countP, List.countP_map, if_true]
    have h : List.countP ((fun b => b == true) ∘ fun i => label == i) (List.range oc)
        = List.count label (List.range oc) := by
      rw [List.count_eq_countP]
      apply List.countP_congr
      intro i _
      simp only [Function.comp_apply, beq_iff_eq]
      exact eq_comm
    rw [h, List.count_eq_one_of_mem (List.nodup_range oc) (List.mem_range.mpr hl)]

/-- C6 (amended): every day is marked in at least one cluster; a day is marked
in exactly one cluster unless it is a Saturday Italian holiday, which is marked
in two (`Cluster_1` and `Cluster_2`).  Hypothesis: the external fit labels are
below `optimal_clusters` (as `fit_predict` guarantees). -/
theorem clusterMaskRow_count (optimalClusters label : ℕ) (d : DayInfo)
    (hl : label < optimalClusters) :
    (clusterMaskRow optimalClusters label d).count true
      = if d.weekday = 5 ∧ d.holidayIT then 2 else 1 := by
  unfold clusterMaskRow
  rw [List.count_cons, List.count_cons,
    count_true_map_and_label optimalClusters label (workingDay d) hl]
  unfold workingDay cluster1Member cluster2Member
  rcases d with ⟨w, h⟩
  by_cases hw5 : w = 5
  · subst hw5
    cases h
    · norm_num
    · norm_num
  · by_cases hw6 : w = 6
    · subst hw6
      cases h
      · norm_num
      · norm_num
    · cases h
      · simp [hw5, hw6]
      · simp [hw5, hw6]

/-- Witness for C6 (amended) at concrete inputs: an ordinary Wednesday working
day is marked exactly once; a Saturday holiday is marked twice. -/
theorem clusterMaskRow_count_witness :
    (0 < 3 ∧ (clusterMaskRow 3 0 ⟨2, false⟩).count true = 1)
    ∧ (0 < 3 ∧ (clusterMaskRow 3 0 ⟨5, true⟩).count true = 2) := by
  constructor
  · exact ⟨by decide, by
      rw [clusterMaskRow_count 3 0 ⟨2, false⟩ (by decide)]
      decide⟩
  · exact ⟨by decide, by
      rw [clusterMaskRow_count 3 0 ⟨5, true⟩ (by decide)]
      decide⟩

/-! ### Time-window extraction (cart_function.py lines 41-112)

`run_cart` fits a `DecisionTreeRegressor` on (time-of-day, power) and reads the
leaf intervals off the tree.  The fitted trees are produced by the external
sklearn library; the embedding takes them as an oracle `trees : ℕ → CartTree`
(iteration `i` uses `min_samples_leaf = 2000 + 500·i`).  The `while True` loop
is modelled with an explicit fuel bound.  The presentation-only columns of the
returned dataframe (`description`, `duration`, `node`) are string renderings of
the same data and are not embedded. -/

/-- A fitted regression tree over the single split feature `time_numeric`:
either a leaf or an internal node with a threshold. -/
inductive CartTree
  | leaf
  | node (t : ℚ) (l : CartTree) (r : CartTree)
deriving DecidableEq, Repr

/-- cart_function.py lines 47-59 (`recurse`): the in-order list of leaf
intervals, clamping with `min(upper, threshold)` / `max(lower, threshold)`. -/
def extractIntervals : CartTree → ℚ → ℚ → List (ℚ × ℚ)
  | .leaf, lo, hi => [(lo, hi)]
  | .node t l r, lo, hi =>
      extractIntervals l lo (min hi t) ++ extractIntervals r (max lo t) hi

/-- `np.round(x * 4) / 4` on one endpoint (cart_function.py line 73). -/
def roundQuarter (q : ℚ) : ℚ := (roundHalfEven (q * 4) : ℚ) / 4

/-- cart_function.py lines 71-73: leaf intervals of the fitted tree, both
endpoints rounded to the nearest quarter hour. -/
def roundedIntervals (t : CartTree) : List (ℚ × ℚ) :=
  (extractIntervals t 0 24).map (fun ab => (roundQuarter ab.1, roundQuarter ab.2))

/-- `min_interval_length = 2.5` (cart_function.py line 26). -/
def min_interval_length : ℚ := 5/2

/-- cart_function.py lines 74-76: the loop exit check
`all(duration >= min_interval_length for duration in intervals_duration)`. -/
def durationsOk (t : CartTree) : Bool :=
  (roundedIntervals t).all (fun ab => decide (min_interval_length ≤ ab.2 - ab.1))

/-- The "HH:MM" rendering `f"{int(start):02d}:{int((start % 1) * 60):02d}"`
(cart_function.py lines 90-97), as its numeric fields; Python float `% 1` is
`q - ⌊q⌋`. -/
def toHHMM (q : ℚ) : ℤ × ℤ := (pyInt q, pyInt ((q - ⌊q⌋) * 60))

/-- One row of `time_window_corrected` (cart_function.py lines 80-103). -/
def timeWindowRowOf (i : ℕ) (ab : ℚ × ℚ) : TimeWindowRow :=
  { id := i + 1
    observations := pyInt ((ab.2 - ab.1) * 4)
    fromHH := toHHMM ab.1
    toHH := toHHMM ab.2 }

/-- The `time_window_corrected` dataframe built from the accepted tree. -/
def timeWindowTable (t : CartTree) : List TimeWindowRow :=
  (roundedIntervals t).enum.map (fun p => timeWindowRowOf p.1 p.2)

/-- The `while True` loop of cart_function.py lines 63-110, with fuel: iteration
`iter` fits `trees iter` and returns its table iff the duration check passes,
otherwise retries with `min_samples_leaf` increased. -/
def run_cartLoop : (ℕ → CartTree) → ℕ → ℕ → Option (List TimeWindowRow)
  | _, _, 0 => none
  | trees, iter, fuel + 1 =>
    if durationsOk (trees iter) then some (timeWindowTable (trees iter))
    else run_cartLoop trees (iter + 1) fuel

/-- `run_cart` (cart_function.py lines 10-112). -/
def run_cart (trees : ℕ → CartTree) (fuel : ℕ) : Option (List TimeWindowRow) :=
  run_cartLoop trees 0 fuel

/-- `IsChain a l b`: the interval list `l` tiles `[a, b]` contiguously — the
first interval starts at `a`, each interval ends where the next begins, and the
last ends at `b`. -/
def IsChain : ℚ → List (ℚ × ℚ) → ℚ → Prop
  | a, [], b => a = b
  | a, x :: xs, b => x.1 = a ∧ IsChain x.2 xs b

/-- The hour values of a table row: (`from`, `to`) parsed back to decimal hours. -/
def rowHours (r : TimeWindowRow) : ℚ × ℚ := (hour_to_dec r.fromHH, hour_to_dec r.toHH)

theorem extractIntervals_ne_nil (t : CartTree) (lo hi : ℚ) :
    extractIntervals t lo hi ≠ [] := by
  cases t with
  | leaf => simp [extractIntervals]
  | node th l r =>
    simp only [extractIntervals, ne_eq, List.append_eq_nil]
    intro hcontra
    exact extractIntervals_ne_nil l lo (min hi th) hcontra.1

theorem extractIntervals_bounds (t : CartTree) (lo hi : ℚ) :
    ∀ ab ∈ extractIntervals t lo hi, lo ≤ ab.1 ∧ ab.2 ≤ hi := by
  induction t generalizing lo hi with
  | leaf =>
    intro ab hab
    simp only [extractIntervals, List.mem_singleton] at hab
    subst hab
    exact ⟨le_refl _, le_refl _⟩
  | node th l r ihl ihr =>
    intro ab hab
    simp only [extractIntervals, List.mem_append] at hab
    rcases hab with hab | hab
    · obtain ⟨h1, h2⟩ := ihl lo (min hi th) ab hab
      exact ⟨h1, le_trans h2 (min_le_left _ _)⟩
    · obtain ⟨h1, h2⟩ := ihr (max lo th) hi ab hab
      exact ⟨le_trans (le_max_left _ _) h1, h2⟩

theorem IsChain.append {a b c : ℚ} {l1 l2 : List (ℚ × ℚ)}
    (h1 : IsChain a l1 b) (h2 : IsChain b l2 c) : IsChain a (l1 ++ l2) c := by
  induction l1 generalizing a with
  | nil =>
    unfold IsChain at h1
    subst h1
    simpa using h2
  | cons x xs ih =>
    obtain ⟨hx, hxs⟩ := h1
    exact ⟨hx, ih hxs⟩

theorem extractIntervals_chain (t : CartTree) (lo hi : ℚ)
    (hpos : ∀ ab ∈ extractIntervals t lo hi, ab.1 < ab.2) :
    IsChain lo (extractIntervals t lo hi) hi := by
  induction t generalizing lo hi with
  | leaf => exact ⟨rfl, rfl⟩
  | node th l r ihl ihr =>
    have hposl : ∀ ab ∈ extractIntervals l lo (min hi th), ab.1 < ab.2 := by
      intro ab hab
      exact hpos ab (by simp [extractIntervals, List.mem_append, hab])
    have hposr : ∀ ab ∈ extractIntervals r (max lo th) hi, ab.1 < ab.2 := by
      intro ab hab
      exact hpos ab (by simp [extractIntervals, List.mem_append, hab])
    have hle : lo ≤ th := by
      by_contra hcon
      push_neg at hcon
      obtain ⟨ab, hab⟩ := List.exists_mem_of_ne_nil _ (extractIntervals_ne_nil l lo (min hi th))
      obtain ⟨hb1, hb2⟩ := extractIntervals_bounds l lo (min hi th) ab hab
      have := hposl ab hab
      have : min hi th ≤ th := min_le_right _ _
      linarith
    have hge : th ≤ hi := by
      by_contra hcon
      push_neg at hcon
      obtain ⟨ab, hab⟩ := List.exists_mem_of_ne_nil _ (extractIntervals_ne_nil r (max lo th) hi)
      obtain ⟨hb1, hb2⟩ := extractIntervals_bounds r (max lo th) hi ab hab
      have := hposr ab hab
      have : th ≤ max lo th := le_max_right _ _
      linarith
    have hmin : min hi th = th := min_eq_right hge
    have hmax : max lo th = th := max_eq_right hle
    rw [extractIntervals, hmin, hmax]
    rw [hmin] at hposl
    rw [hmax] at hposr
    exact IsChain.append (ihl lo th hposl) (ihr th hi hposr)

theorem IsChain.map {a b : ℚ} {l : List (ℚ × ℚ)} (f : ℚ → ℚ)
    (h : IsChain a l b) :
    IsChain (f a) (l.map (fun ab => (f ab.1, f ab.2))) (f b) := by
  induction l generalizing a with
  | nil =>
    unfold IsChain at h
    subst h
    rfl
  | cons x xs ih =>
    obtain ⟨hx, hxs⟩ := h
    exact ⟨congrArg f hx, ih hxs⟩

theorem roundQuarter_le (q : ℚ) : roundQuarter q ≤ q + 1/8 := by
  unfold roundQuarter
  have := roundHalfEven_le (q * 4)
  linarith

theorem le_roundQuarter (q : ℚ) : q - 1/8 ≤ roundQuarter q := by
  unfold roundQuarter
  have := le_roundHalfEven (q * 4)
  linarith

theorem roundQuarter_intCast (z : ℤ) : roundQuarter ((z : ℚ)) = z := by
  unfold roundQuarter
  rw [show ((z : ℚ) * 4) = (((z * 4 : ℤ)) : ℚ) by push_cast; ring, roundHalfEven_intCast]
  push_cast
  ring

theorem roundQuarter_nonneg {q : ℚ} (h : 0 ≤ q) : 0 ≤ roundQuarter q := by
  unfold roundQuarter
  have h4 : (0 : ℚ) ≤ q * 4 := by linarith
  have : (0 : ℤ) ≤ ⌊q * 4⌋ := Int.floor_nonneg.mpr h4
  have hcase : roundHalfEven (q * 4) = ⌊q * 4⌋ ∨ roundHalfEven (q * 4) = ⌊q * 4⌋ + 1 := by
    unfold roundHalfEven
    split_ifs
    · exact Or.inl rfl
    · exact Or.inr rfl
    · exact Or.inl rfl
    · exact Or.inr rfl
  rcases hcase with hc | hc
  · rw [hc]
    positivity
  · rw [hc]
    have : (0 : ℚ) ≤ ((⌊q * 4⌋ : ℚ) + 1) / 4 := by positivity
    push_cast
    push_cast at this
    linarith

theorem roundQuarter_quarter (q : ℚ) : ∃ z : ℤ, roundQuarter q * 4 = (z : ℚ) := by
  refine ⟨roundHalfEven (q * 4), ?_⟩
  unfold roundQuarter
  ring

theorem hour_to_dec_toHHMM {q : ℚ} (h0 : 0 ≤ q) (hz : ∃ z : ℤ, q * 4 = (z : ℚ)) :
    hour_to_dec (toHHMM q) = q := by
  obtain ⟨z, hz⟩ := hz
  unfold toHHMM hour_to_dec
  rw [pyInt_of_nonneg h0]
  have h2 : (q - ⌊q⌋) * 60 = (((z - 4 * ⌊q⌋) * 15 : ℤ) : ℚ) := by
    push_cast
    linarith
  rw [h2, pyInt_intCast]
  push_cast
  linarith

theorem run_cartLoop_some {trees : ℕ → CartTree} {fuel : ℕ} :
    ∀ {iter : ℕ} {tbl : List TimeWindowRow},
    run_cartLoop trees iter fuel = some tbl →
    ∃ i, durationsOk (trees i) = true ∧ tbl = timeWindowTable (trees i) := by
  induction fuel with
  | zero =>
    intro iter tbl h
    exact absurd h (by simp [run_cartLoop])
  | succ n ih =>
    intro iter tbl h
    unfold run_cartLoop at h
    by_cases hok : durationsOk (trees iter) = true
    · rw [if_pos hok] at h
      injection h with h
      exact ⟨iter, hok, h.symm⟩
    · rw [if_neg hok] at h
      exact ih h

theorem pos_of_durationsOk {tr : CartTree} (h : durationsOk tr = true) :
    ∀ ab ∈ extractIntervals tr 0 24, ab.1 < ab.2 := by
  intro ab hab
  have hmem : (roundQuarter ab.1, roundQuarter ab.2) ∈ roundedIntervals tr := by
    unfold roundedIntervals
    exact List.mem_map.mpr ⟨ab, hab, rfl⟩
  have hd := List.all_eq_true.mp h _ hmem
  have hd' : min_interval_length ≤ roundQuarter ab.2 - roundQuarter ab.1 := by
    simpa using hd
  have h1 := roundQuarter_le ab.2
  have h2 := le_roundQuarter ab.1
  unfold min_interval_length at hd'
  linarith

theorem roundTrip_of_mem {tr : CartTree} (h : durationsOk tr = true) :
    ∀ ab ∈ extractIntervals tr 0 24,
      hour_to_dec (toHHMM (roundQuarter ab.1)) = roundQuarter ab.1
      ∧ hour_to_dec (toHHMM (roundQuarter ab.2)) = roundQuarter ab.2 := by
  intro ab hab
  obtain ⟨hb1, _⟩ := extractIntervals_bounds tr 0 24 ab hab
  have hpos := pos_of_durationsOk h ab hab
  have hb0 : (0 : ℚ) ≤ ab.2 := le_of_lt (lt_of_le_of_lt hb1 hpos)
  exact ⟨hour_to_dec_toHHMM (roundQuarter_nonneg hb1) (roundQuarter_quarter _),
    hour_to_dec_toHHMM (roundQuarter_nonneg hb0) (roundQuarter_quarter _)⟩

theorem timeWindowTable_map_rowHours {tr : CartTree} (h : durationsOk tr = true) :
    (timeWindowTable tr).map rowHours = roundedIntervals tr := by
  unfold timeWindowTable
  rw [List.map_map]
  have hcomp : (rowHours ∘ fun p : ℕ × (ℚ × ℚ) => timeWindowRowOf p.1 p.2)
      = ((fun ab : ℚ × ℚ => (hour_to_dec (toHHMM ab.1), hour_to_dec (toHHMM ab.2)))
          ∘ Prod.snd) := rfl
  rw [hcomp, ← List.map_map, List.enum_eq_enumFrom, List.enumFrom_map_snd]
  unfold roundedIntervals
  rw [List.map_map]
  apply List.map_congr_left
  intro ab hab
  obtain ⟨h1, h2⟩ := roundTrip_of_mem h ab hab
  simp only [Function.comp_apply]
  rw [Prod.mk.injEq]
  exact ⟨h1, h2⟩

/-- C9: every table returned by `run_cart` satisfies, for each row,
`observations = (to_hours − from_hours) · 4` with a duration of at least 2.5
hours, and the row intervals tile the day contiguously: the first starts at
00:00, each row's `to` equals the next row's `from`, and the last ends at 24:00
(`IsChain 0 _ 24` over the parsed hour values). -/
theorem run_cart_table_props (trees : ℕ → CartTree) (fuel : ℕ) (tbl : List TimeWindowRow)
    (h : run_cart trees fuel = some tbl) :
    (∀ row ∈ tbl,
        (row.observations : ℚ) = (hour_to_dec row.toHH - hour_to_dec row.fromHH) * 4
        ∧ min_interval_length ≤ hour_to_dec row.toHH - hour_to_dec row.fromHH)
    ∧ IsChain 0 (tbl.map rowHours) 24 := by
  obtain ⟨i, hok, rfl⟩ := run_cartLoop_some h
  constructor
  · intro row hrow
    unfold timeWindowTable at hrow
    obtain ⟨p, hp, hrweq⟩ := List.mem_map.mp hrow
    have hp2 : p.2 ∈ roundedIntervals (trees i) := by
      have hmem : p.2 ∈ (roundedIntervals (trees i)).enum.map Prod.snd :=
        List.mem_map_of_mem _ hp
      rwa [List.enum_eq_enumFrom, List.enumFrom_map_snd] at hmem
    have hdur : min_interval_length ≤ p.2.2 - p.2.1 := by
      simpa using List.all_eq_true.mp hok _ hp2
    obtain ⟨ab, hab, habeq⟩ := List.mem_map.mp hp2
    obtain ⟨hr1, hr2⟩ := roundTrip_of_mem hok ab hab
    obtain ⟨za, hza⟩ := roundQuarter_quarter ab.1
    obtain ⟨zb, hzb⟩ := roundQuarter_quarter ab.2
    have hfields : row.observations = pyInt ((p.2.2 - p.2.1) * 4)
        ∧ row.fromHH = toHHMM p.2.1 ∧ row.toHH = toHHMM p.2.2 := by
      rw [← hrweq]
      exact ⟨rfl, rfl, rfl⟩
    obtain ⟨hobs, hfrom, hto⟩ := hfields
    have hp21 : p.2.1 = roundQuarter ab.1 := by rw [← habeq]
    have hp22 : p.2.2 = roundQuarter ab.2 := by rw [← habeq]
    have hcast : (p.2.2 - p.2.1) * 4 = ((zb - za : ℤ) : ℚ) := by
      rw [hp21, hp22]
      push_cast
      linarith
    constructor
    · rw [hobs, hcast, pyInt_intCast, hfrom, hto, hp21, hp22, hr1, hr2, ← hcast,
        hp21, hp22]
    · rw [hfrom, hto, hp21, hp22, hr1, hr2, ← hp21, ← hp22]
      exact hdur
  · rw [timeWindowTable_map_rowHours hok]
    have hchain := extractIntervals_chain (trees i) 0 24 (pos_of_durationsOk hok)
    have hmap := IsChain.map roundQuarter hchain
    have h0 : roundQuarter 0 = 0 := by
      norm_num [roundQuarter, roundHalfEven]
    have h24 : roundQuarter 24 = 24 := by
      norm_num [roundQuarter, roundHalfEven]
    rw [h0, h24] at hmap
    exact hmap

/-- Witness for C9 at a concrete input: a single-leaf tree is accepted at the
first iteration and yields the one-row table covering [00:00, 24:00). -/
theorem run_cart_table_props_witness :
    run_cart (fun _ => CartTree.leaf) 1 = some [⟨1, 96, (0, 0), (24, 0)⟩]
    ∧ ((∀ row ∈ ([⟨1, 96, (0, 0), (24, 0)⟩] : List TimeWindowRow),
        (row.observations : ℚ) = (hour_to_dec row.toHH - hour_to_dec row.fromHH) * 4
        ∧ min_interval_length ≤ hour_to_dec row.toHH - hour_to_dec row.fromHH)
      ∧ IsChain 0 (([⟨1, 96, (0, 0), (24, 0)⟩] : List TimeWindowRow).map rowHours) 24) :=
  ⟨by norm_num [run_cart, run_cartLoop, durationsOk, roundedIntervals, extractIntervals,
      roundQuarter, roundHalfEven, min_interval_length, timeWindowTable, timeWindowRowOf,
      toHHMM, pyInt, List.enum],
   run_cart_table_props (fun _ => CartTree.leaf) 1 _
     (by norm_num [run_cart, run_cartLoop, durationsOk, roundedIntervals, extractIntervals,
       roundQuarter, roundHalfEven, min_interval_length, timeWindowTable, timeWindowRowOf,
       toHHMM, pyInt, List.enum])⟩

/-! ### The anomaly_results table (main.py lines 119, 235, 251-252, 434-445)

`df_anomaly_context` starts as `group_df.astype(int)`; inside the cluster loop a
column named `f"{group_name}.{context_string_small}"` is added, initialised to
all zeros (lines 251-252).  No later statement of main.py writes to these
columns — the severity update exists only inside the commented-out block of
Polito_Usecase.py (lines 447-583) — so `df_anomaly_results` keeps the zeros. -/

/-- A named integer dataframe column. -/
structure NamedCol where
  name : String
  vals : List ℤ
deriving DecidableEq, Repr

/-- `df_anomaly_context` after the cluster loop of one context: the original
`group_df` columns (as ints) followed by one all-zero column per cluster. -/
def dfAnomalyContext (groupCols : List NamedCol) (ctxName : String)
    (clusterNames : List String) (nDays : ℕ) : List NamedCol :=
  groupCols ++ clusterNames.map (fun g => ⟨g ++ "." ++ ctxName, List.replicate nDays 0⟩)

/-- C7 evaluation at the failing input: with scores `cmp = [7, 0]`,
`energy = [7, 0]` the first day has combined severity 14 ≥ 6 and enters the
anomalies table, yet the `Cluster_1.<context>` column of the results table keeps
its zero initialisation for every day: main.py never writes the severity into
`df_anomaly_context`. -/
theorem dfAnomalyContext_column_stays_zero :
    (∃ r ∈ anomaliesTable [7, 0] [7, 0], r.dayIdx = 0 ∧ r.score = 14)
    ∧ ((dfAnomalyContext [⟨"Cluster_1", [1, 1]⟩] "ctx1" ["Cluster_1"] 2).getD 1
        ⟨"", []⟩).vals = [0, 0]
    ∧ ¬ (((dfAnomalyContext [⟨"Cluster_1", [1, 1]⟩] "ctx1" ["Cluster_1"] 2).getD 1
        ⟨"", []⟩).vals.getD 0 0 = 14) := by
  refine ⟨⟨⟨0, 14, 1⟩, ?_, rfl, rfl⟩, rfl, by decide⟩
  decide

/-! ### Frame effect of the per-cluster CMP slice (main.py lines 255-259)

`group_cmp = cmp.distance_matrix[:, group][group, :]` uses numpy boolean
(advanced) indexing, which returns a fresh copy, so the subsequent in-place
overwrite `group_cmp[group_cmp == np.inf] = 0` does not touch
`cmp.distance_matrix`.  To express this aliasing fact the arrays live in a
small heap addressed by allocation order. -/

/-- A numpy float value of a distance matrix: a finite value or `+inf`
(the trivial-match sentinel written by the CMP consumer). -/
inductive NpVal
  | num (q : ℚ)
  | inf
deriving DecidableEq, Repr

/-- Boolean-mask selection of the entries of a list (numpy `a[mask]`). -/
def maskSelect (mask : List Bool) (l : List α) : List α :=
  (l.enum.filter (fun p => mask.getD p.1 false)).map Prod.snd

/-- `dm[:, group][group, :]`: boolean advanced indexing on columns, then rows. -/
def matSelect (m : List (List NpVal)) (mask : List Bool) : List (List NpVal) :=
  maskSelect mask (m.map (maskSelect mask))

/-- `group_cmp[group_cmp == np.inf] = 0` as a value transformation. -/
def zeroInf (m : List (List NpVal)) : List (List NpVal) :=
  m.map (fun row => row.map (fun v => if v = NpVal.inf then NpVal.num 0 else v))

/-- A heap of numpy arrays addressed by allocation index. -/
structure NpHeap where
  arrays : List (List (List NpVal))

def NpHeap.get (h : NpHeap) (r : ℕ) : List (List NpVal) := h.arrays.getD r []

/-- Allocate a fresh array; returns the new heap and the new reference. -/
def NpHeap.alloc (h : NpHeap) (m : List (List NpVal)) : NpHeap × ℕ :=
  (⟨h.arrays ++ [m]⟩, h.arrays.length)

/-- Overwrite the array stored at `r`. -/
def NpHeap.put (h : NpHeap) (r : ℕ) (m : List (List NpVal)) : NpHeap :=
  ⟨h.arrays.set r m⟩

/-- One cluster iteration of main.py lines 255-259: boolean advanced indexing of
`cmp.distance_matrix` allocates a fresh copy (numpy semantics), whose `+inf`
entries are then overwritten with 0 in place. -/
def clusterCmpStep (h : NpHeap) (dm : ℕ) (mask : List Bool) : NpHeap × ℕ :=
  let p := h.alloc (matSelect (h.get dm) mask)
  (p.1.put p.2 (zeroInf (p.1.get p.2)), p.2)

/-- The loop over clusters (main.py line 241): each iteration re-reads
`cmp.distance_matrix` at reference `dm` and produces its `group_cmp` value. -/
def clusterCmpLoop (h : NpHeap) (dm : ℕ) :
    List (List Bool) → NpHeap × List (List (List NpVal))
  | [] => (h, [])
  | mask :: rest =>
    let p := clusterCmpStep h dm mask
    let q := clusterCmpLoop p.1 dm rest
    (q.1, (p.1.get p.2) :: q.2)

theorem NpHeap.get_alloc_lt {h : NpHeap} {m : List (List NpVal)} {r : ℕ}
    (hr : r < h.arrays.length) : (h.alloc m).1.get r = h.get r := by
  unfold NpHeap.alloc NpHeap.get
  simp only
  rw [List.getD_eq_getElem?_getD, List.getD_eq_getElem?_getD,
    List.getElem?_append_left hr]

theorem NpHeap.get_alloc_self (h : NpHeap) (m : List (List NpVal)) :
    (h.alloc m).1.get (h.alloc m).2 = m := by
  unfold NpHeap.alloc NpHeap.get
  simp

theorem NpHeap.get_put_ne {h : NpHeap} {r s : ℕ} {m : List (List NpVal)}
    (hne : s ≠ r) : (h.put r m).get s = h.get s := by
  unfold NpHeap.put NpHeap.get
  simp only
  rw [List.getD_eq_getElem?_getD, List.getD_eq_getElem?_getD,
    List.getElem?_set_ne (by omega)]

theorem NpHeap.get_put_self {h : NpHeap} {r : ℕ} {m : List (List NpVal)}
    (hr : r < h.arrays.length) : (h.put r m).get r = m := by
  unfold NpHeap.put NpHeap.get
  simp only
  rw [List.getD_eq_getElem?_getD, List.getElem?_set_self hr]
  rfl

theorem clusterCmpStep_get_dm {h : NpHeap} {dm : ℕ} {mask : List Bool}
    (hdm : dm < h.arrays.length) :
    (clusterCmpStep h dm mask).1.get dm = h.get dm := by
  unfold clusterCmpStep
  simp only
  rw [NpHeap.get_put_ne (by
    show dm ≠ (h.alloc (matSelect (h.get dm) mask)).2
    unfold NpHeap.alloc
    omega)]
  exact NpHeap.get_alloc_lt hdm

theorem clusterCmpStep_value {h : NpHeap} {dm : ℕ} {mask : List Bool} :
    (clusterCmpStep h dm mask).1.get (clusterCmpStep h dm mask).2
      = zeroInf (matSelect (h.get dm) mask) := by
  unfold clusterCmpStep
  simp only
  rw [NpHeap.get_put_self (by
      unfold NpHeap.alloc
      simp), NpHeap.get_alloc_self]

theorem clusterCmpStep_arrays_length {h : NpHeap} {dm : ℕ} {mask : List Bool} :
    (clusterCmpStep h dm mask).1.arrays.length = h.arrays.length + 1 := by
  unfold clusterCmpStep NpHeap.alloc NpHeap.put
  simp

/-- C8: for every list of cluster masks, running the per-cluster slice-and-zero
steps leaves `cmp.distance_matrix` itself unchanged, and every iteration's
`group_cmp` equals the slice of the ORIGINAL matrix (infinities included) with
`+inf` then replaced by 0 — boolean advanced indexing copies, so no iteration
sees another's writes. -/
theorem clusterCmpLoop_frame (h : NpHeap) (dm : ℕ) (masks : List (List Bool))
    (hdm : dm < h.arrays.length) :
    (clusterCmpLoop h dm masks).1.get dm = h.get dm
    ∧ (clusterCmpLoop h dm masks).2
        = masks.map (fun mask => zeroInf (matSelect (h.get dm) mask)) := by
  induction masks generalizing h with
  | nil => exact ⟨rfl, rfl⟩
  | cons mask rest ih =>
    have hstep : (clusterCmpStep h dm mask).1.get dm = h.get dm :=
      clusterCmpStep_get_dm hdm
    have hlen : dm < (clusterCmpStep h dm mask).1.arrays.length := by
      rw [clusterCmpStep_arrays_length]
      omega
    obtain ⟨ih1, ih2⟩ := ih (h := (clusterCmpStep h dm mask).1) hlen
    constructor
    · show (clusterCmpLoop (clusterCmpStep h dm mask).1 dm rest).1.get dm = h.get dm
      rw [ih1, hstep]
    · show (clusterCmpStep h dm mask).1.get (clusterCmpStep h dm mask).2
          :: (clusterCmpLoop (clusterCmpStep h dm mask).1 dm rest).2 = _
      rw [clusterCmpStep_value, ih2, hstep, List.map_cons]

/-- Witness for C8 at a concrete input: a heap holding one 2×2 matrix with an
`+inf` diagonal and two cluster masks. -/
theorem clusterCmpLoop_frame_witness :
    (0 < (NpHeap.mk [[[NpVal.inf, NpVal.num 3], [NpVal.num 3, NpVal.inf]]]).arrays.length)
    ∧ ((clusterCmpLoop ⟨[[[NpVal.inf, NpVal.num 3], [NpVal.num 3, NpVal.inf]]]⟩ 0
          [[true, true], [true, false]]).1.get 0
        = (NpHeap.mk [[[NpVal.inf, NpVal.num 3], [NpVal.num 3, NpVal.inf]]]).get 0
      ∧ (clusterCmpLoop ⟨[[[NpVal.inf, NpVal.num 3], [NpVal.num 3, NpVal.inf]]]⟩ 0
          [[true, true], [true, false]]).2
        = [[true, true], [true, false]].map (fun mask =>
            zeroInf (matSelect ((NpHeap.mk
              [[[NpVal.inf, NpVal.num 3], [NpVal.num 3, NpVal.inf]]]).get 0) mask))) :=
  ⟨by decide,
   clusterCmpLoop_frame ⟨[[[NpVal.inf, NpVal.num 3], [NpVal.num 3, NpVal.inf]]]⟩ 0
     [[true, true], [true, false]] (by decide)⟩

/-! ### Per-cluster analysis (main.py lines 283-338) and temperature
noninterference

The feature extractors and the rank-voting scorer live in
`src/cmp/anomaly_detection_functions.py`, which is not among the sources.  The
extractors are modelled from the spec; the scorer `anomaly_detection` only
matters here through its call pattern, so it is an explicit parameter
`ad : cluster mask → feature vector → score vector` (spec §4.6: a rank-voting
score in `{0..7}` per day, 0 outside the cluster). -/

/-- The value of a (post-`zeroInf`) matrix entry as a rational; `+inf` never
occurs after `zeroInf`, and is read as 0. -/
def NpVal.toQ : NpVal → ℚ
  | NpVal.num q => q
  | NpVal.inf => 0

/-- Modelled from the spec: `extract_vector_ad_cmp` of
`src/cmp/anomaly_detection_functions.py` (file not in the sources): for each day
of the cluster slice, the minimum of its `group_cmp` row excluding the diagonal
(0 for a singleton cluster). -/
def extract_vector_ad_cmp (group_cmp : List (List NpVal)) : List ℚ :=
  group_cmp.enum.map (fun p => ((p.2.eraseIdx p.1).map NpVal.toQ).foldr min 0)

/-- The observation indices spanned by time window `w` at `oph` observations
per hour. -/
def windowObsIdx (w : TimeWindowRow) (oph : ℕ) : List ℕ :=
  List.range' ((dec_to_obs (hour_to_dec w.fromHH) oph).toNat)
    ((dec_to_obs (hour_to_dec w.toHH) oph).toNat
      - (dec_to_obs (hour_to_dec w.fromHH) oph).toNat)

/-- Modelled from the spec: `extract_vector_ad_energy` of
`src/cmp/anomaly_detection_functions.py` (file not in the sources): for each day
of the cluster, the cumulative energy `Σ S[d·p + i]` with `i` spanning the
current time window. -/
def extract_vector_ad_energy (group : List Bool) (values : List ℚ)
    (opd oph : ℕ) (w : TimeWindowRow) : List ℚ :=
  ((List.range (values.length / opd)).filter (fun d => group.getD d false)).map
    (fun d => ((windowObsIdx w oph).map (fun i => values.getD (d * opd + i) 0)).sum)

/-- Modelled from the spec: `extract_vector_ad_temperature` of
`src/cmp/anomaly_detection_functions.py` (file not in the sources): for each day
of the cluster, the mean of `T` over the same window. -/
def extract_vector_ad_temperature (group : List Bool) (temps : List ℚ)
    (opd oph : ℕ) (w : TimeWindowRow) : List ℚ :=
  ((List.range (temps.length / opd)).filter (fun d => group.getD d false)).map
    (fun d => ((windowObsIdx w oph).map (fun i => temps.getD (d * opd + i) 0)).sum
      / (windowObsIdx w oph).length)

/-- The per-(window, cluster) outputs of main.py lines 283-338: the three score
columns of `df_result_context_cluster`, the raw temperature feature vector, and
the anomalies table. -/
structure ClusterStepResult where
  cmpScore : List ℤ
  energyScore : List ℤ
  temperatureScore : List ℤ
  vector_ad_temperature : List ℚ
  table : List AnomalyRow

/-- One (window, cluster) iteration of main.py lines 283-338: extract the three
feature vectors, score each with `anomaly_detection`, and build the anomalies
table from the CMP and energy scores. -/
def clusterStep (ad : List Bool → List ℚ → List ℤ) (group : List Bool)
    (values temps : List ℚ) (opd oph : ℕ) (w : TimeWindowRow)
    (group_cmp : List (List NpVal)) : ClusterStepResult :=
  let vCmp := extract_vector_ad_cmp group_cmp
  let vEnergy := extract_vector_ad_energy group values opd oph w
  let vTemp := extract_vector_ad_temperature group temps opd oph w
  { cmpScore := ad group vCmp
    energyScore := ad group vEnergy
    temperatureScore := ad group vTemp
    vector_ad_temperature := vTemp
    table := anomaliesTable (ad group vCmp) (ad group vEnergy) }

/-- C10: for any scorer and any two datasets identical except in the temperature
channel, the per-(window, cluster) anomalies tables are identical (same days,
scores and ranks): the temperature score is computed (it is a field of the
result) but never enters the table.  The CMP slice and the cluster mask depend
only on the value channel, so they are shared parameters. -/
theorem clusterStep_table_independent_of_temperature
    (ad : List Bool → List ℚ → List ℤ) (group : List Bool)
    (values temps1 temps2 : List ℚ) (opd oph : ℕ) (w : TimeWindowRow)
    (group_cmp : List (List NpVal)) :
    (clusterStep ad group values temps1 opd oph w group_cmp).table
      = (clusterStep ad group values temps2 opd oph w group_cmp).table := rfl

/-! ### The pipeline driver prologue (main.py lines 52-79) and C2

main.py line 79 calls `run_clustering(data.copy(), df_holidays)` with TWO
positional arguments, while clustering_function.py line 10 declares
`def run_clustering(data)` with a single parameter, so Python raises `TypeError`
at that call, before the time-window loop (and hence before any CMP
computation).  The ingest helpers of `src/cmp/utils.py` and the
`src/distancematrix` package are not among the sources; the driver model starts
from the already-loaded dataset and takes the CMP matrices as an oracle
`cmpOf`. -/

inductive PyError
  | typeError
deriving DecidableEq, Repr

/-- The phases of main.py in execution order. -/
inductive DriverPhase
  | ingest
  | cart
  | clustering
  | cmpLoop
  | report
deriving DecidableEq, Repr

/-- `def run_clustering(data)` (clustering_function.py line 10): one parameter. -/
def run_clustering_paramCount : ℕ := 1

/-- `run_clustering(data.copy(), df_holidays)` (main.py line 79): two positional
arguments. -/
def mainCall_run_clustering_argCount : ℕ := 2

/-- Python call semantics: a call with a wrong number of positional arguments
raises `TypeError` before the body runs. -/
def pyCallCheck (paramCount argCount : ℕ) (r : α) : Except PyError α :=
  if argCount = paramCount then Except.ok r else Except.error PyError.typeError

/-- Everything the driver reads, with the external oracles: the fitted CART
trees, the fit labels, the per-window CMP matrices (the `src/distancematrix`
package is not among the sources) and the `anomaly_detection` scorer. -/
structure DriverInput where
  values : List ℚ
  temps : List ℚ
  days : List DayInfo
  trees : ℕ → CartTree
  fuel : ℕ
  optimalClusters : ℕ
  label : ℕ → ℕ
  opd : ℕ
  oph : ℕ
  cmpOf : ℕ → List (List NpVal)
  ad : List Bool → List ℚ → List ℤ

/-- The loop of main.py lines 126-441 over windows and clusters, collecting
`anomalies_table_overall` (only reachable if the clustering call were valid). -/
def pipelineRest (inp : DriverInput) (tw : List TimeWindowRow)
    (g : List (List Bool)) : List AnomalyRow :=
  (List.range tw.length).flatMap (fun id_tw =>
    (List.range (g.getD 0 []).length).flatMap (fun j =>
      let mask := g.map (fun row => row.getD j false)
      (clusterStep inp.ad mask inp.values inp.temps inp.opd inp.oph
        (tw.getD id_tw default)
        (zeroInf (matSelect (inp.cmpOf id_tw) mask))).table))

/-- The pipeline driver of main.py: ingest, `run_cart` (line 73), then the
`run_clustering` call of line 79 — checked against the callee's parameter count
— then the window/cluster loop.  The result records the executed phases and the
outcome; `none` models the (data-dependent) case that the CART `while True`
loop does not terminate within the fuel. -/
def mainDriver (inp : DriverInput) :
    Option (List DriverPhase × Except PyError (List AnomalyRow)) :=
  match run_cart inp.trees inp.fuel with
  | none => none
  | some tw =>
    match pyCallCheck run_clustering_paramCount mainCall_run_clustering_argCount
        (run_clustering_mask inp.days inp.optimalClusters inp.label) with
    | Except.error e => some ([DriverPhase.ingest, DriverPhase.cart, DriverPhase.clustering],
        Except.error e)
    | Except.ok g => some ([DriverPhase.ingest, DriverPhase.cart, DriverPhase.clustering,
        DriverPhase.cmpLoop, DriverPhase.report],
        Except.ok (pipelineRest inp tw g))

/-- C2: for every input on which the CART loop terminates, the driver raises
`TypeError` at the `run_clustering(data.copy(), df_holidays)` call — the callee
takes one parameter — and the CMP phase is never reached. -/
theorem mainDriver_typeError (inp : DriverInput) (tw : List TimeWindowRow)
    (hc : run_cart inp.trees inp.fuel = some tw) :
    mainDriver inp = some ([DriverPhase.ingest, DriverPhase.cart, DriverPhase.clustering],
        Except.error PyError.typeError)
    ∧ DriverPhase.cmpLoop ∉ [DriverPhase.ingest, DriverPhase.cart, DriverPhase.clustering] := by
  constructor
  · unfold mainDriver
    rw [hc]
    rfl
  · decide

/-- Witness for C2 at a concrete input: a 2-day constant dataset with a
single-leaf CART tree. -/
theorem mainDriver_typeError_witness :
    run_cart (fun _ => CartTree.leaf) 1 = some [⟨1, 96, (0, 0), (24, 0)⟩]
    ∧ (mainDriver ⟨List.replicate 192 10, List.replicate 192 15, [⟨2, false⟩, ⟨3, false⟩],
        fun _ => CartTree.leaf, 1, 3, fun _ => 0, 96, 4, fun _ => [], fun _ _ => []⟩
      = some ([DriverPhase.ingest, DriverPhase.cart, DriverPhase.clustering],
          Except.error PyError.typeError)
      ∧ DriverPhase.cmpLoop ∉ [DriverPhase.ingest, DriverPhase.cart, DriverPhase.clustering]) :=
  ⟨by norm_num [run_cart, run_cartLoop, durationsOk, roundedIntervals, extractIntervals,
      roundQuarter, roundHalfEven, min_interval_length, timeWindowTable, timeWindowRowOf,
      toHHMM, pyInt, List.enum],
   mainDriver_typeError _ [⟨1, 96, (0, 0), (24, 0)⟩]
     (by norm_num [run_cart, run_cartLoop, durationsOk, roundedIntervals, extractIntervals,
       roundQuarter, roundHalfEven, min_interval_length, timeWindowTable, timeWindowRowOf,
       toHHMM, pyInt, List.enum])⟩

end CAD
